import Mathlib

/-!
Verification of the WebControl energy-grid dashboard and its server contract.

The development shallowly embeds the Angular dashboard components that are
present in the repository (grid-status classification, next-round response
handling, round-type naming, view determination, slide navigation) and, for
the parts of the server engine whose sources are not in the repository
(binary codec, telemetry ingestion, coefficient resolution, scenario round
state machine), models them from the design specification.  All machine
integers are modelled as `Nat`/`Int` with explicit range side conditions.
-/

namespace WebControl

/-! ## Frontend: round-type encoding (game-statistics.ts, dashboard component) -/

/-- Numeric round-type constant DAY, from the `RoundType` enum in the
dashboard sources (`DAY = 1`). -/
def RoundType.DAY : Int := 1

/-- Numeric round-type constant NIGHT (`NIGHT = 2`). -/
def RoundType.NIGHT : Int := 2

/-- Numeric round-type constant SLIDE (`SLIDE = 3`). -/
def RoundType.SLIDE : Int := 3

/-- Numeric round-type constant SLIDE_RANGE (`SLIDE_RANGE = 4`). -/
def RoundType.SLIDE_RANGE : Int := 4

/-- Result of `getRoundTypeName` in `game-statistics.ts`: the switch over the
`RoundType` enum returning a display name. -/
def getRoundTypeName (roundType : Int) : String :=
  if roundType = RoundType.DAY then ("DAY")
  else if roundType = RoundType.NIGHT then ("NIGHT")
  else if roundType = RoundType.SLIDE then ("SLIDES")
  else if roundType = RoundType.SLIDE_RANGE then ("SLIDES")
  else ("UNKNOWN")

/-- The three views of the dashboard component
(`currentView: 'setup' | 'presentation' | 'game'`). -/
inductive DashView
  | setup
  | presentation
  | game
deriving DecidableEq, Repr

/-- The `GameStatus` interface of the frontend service (`part_004`): the
fields consulted by `determineViewFromGameState`. -/
structure GameStatus where
  current_round : Int
  game_active : Bool
deriving DecidableEq, Repr

/-- The `RoundDetails` interface of the frontend service: the field consulted
by `determineViewFromGameState`. -/
structure RoundDetails where
  round_type : Int
deriving DecidableEq, Repr

/-- `determineViewFromGameState` from the frontend service (`part_004`):
inactive game or round zero yields setup; with round details, types 3/4 give
the presentation view and 1/2 the game view; otherwise the fallback assumes a
game round while the game is active. -/
def determineViewFromGameState (gameStatus : GameStatus)
    (roundDetails : Option RoundDetails) : DashView :=
  if gameStatus.game_active = false ∨ gameStatus.current_round = 0 then .setup
  else
    match roundDetails with
    | some rd =>
      if rd.round_type = 3 ∨ rd.round_type = 4 then .presentation
      else if rd.round_type = 1 ∨ rd.round_type = 2 then .game
      else if gameStatus.game_active then .game else .setup
    | none => if gameStatus.game_active then .game else .setup

/-! ## Frontend: grid status classification (game-statistics.ts) -/

/-- The four status icons returned by `getGridStatusIcon` in
`game-statistics.ts` (grey for placeholders, then green, orange, red). -/
inductive GridStatus
  | grey
  | green
  | orange
  | red
deriving DecidableEq, Repr

/-- `getGridStatusIcon` from `game-statistics.ts`: placeholder boards are
grey; otherwise `balance = production - consumption`, green for
`|balance| <= 1`, orange for `|balance| <= 5`, red beyond. -/
def getGridStatusIcon (is_placeholder : Bool) (production consumption : Int) :
    GridStatus :=
  if is_placeholder then .grey
  else
    let balance := production - consumption
    if |balance| ≤ 1 then .green
    else if |balance| ≤ 5 then .orange
    else .red

/-- The spec's score tolerance bands (§4.6): best, middle, lowest. -/
inductive ToleranceBand
  | best
  | middle
  | lowest
deriving DecidableEq, Repr

/-- Tolerance-band classification written from the spec's words (for the
refinement comparison in C1): `|balance| <= 1` is the best band,
`|balance| <= 5` the middle band, anything else the lowest band. -/
def scoreBand (balance : Int) : ToleranceBand :=
  if |balance| ≤ 1 then .best
  else if |balance| ≤ 5 then .middle
  else .lowest

/-- Mapping from a non-placeholder status icon to the tolerance band it
displays: green shows the best band, orange the middle, red the lowest. -/
def bandOfStatus : GridStatus → Option ToleranceBand
  | .green => some .best
  | .orange => some .middle
  | .red => some .lowest
  | .grey => none

/-! ## Frontend: next-round response handling (game-statistics.ts, part_006) -/

/-- The fields of a `next_round` response consulted by the dashboard handler:
`status` and `round_type`. -/
structure NextRoundResponse where
  status : String
  round_type : Int
deriving DecidableEq, Repr

/-- The dashboard component state touched by the `nextRound` subscription
callback: the active view, the stored round, and the loading flag. -/
structure DashboardState where
  currentView : DashView
  currentRound : Option NextRoundResponse
  isGameLoading : Bool
deriving DecidableEq, Repr

/-- The `nextRound` success callback shared by `game-statistics.ts` and the
dashboard in `part_006`: the response is stored, then a `game_finished`
status switches to setup and clears the round, round types 3/4 switch to the
presentation view, 1/2 to the game view, and any other type leaves the view
alone; the loading flag is always cleared. -/
def handleNextRoundResponse (s : DashboardState) (response : NextRoundResponse) :
    DashboardState :=
  let s1 := { s with currentRound := some response }
  if response.status = "game_finished" then
    { s1 with currentView := .setup, currentRound := none, isGameLoading := false }
  else if response.round_type = RoundType.SLIDE ∨
      response.round_type = RoundType.SLIDE_RANGE then
    { s1 with currentView := .presentation, isGameLoading := false }
  else if response.round_type = RoundType.DAY ∨
      response.round_type = RoundType.NIGHT then
    { s1 with currentView := .game, isGameLoading := false }
  else
    { s1 with isGameLoading := false }

/-! ## Frontend: slide presentation component (slide-presentation.ts) -/

/-- The slide-navigation state of `SlidePresentationComponent`:
`currentSlideIndex`, `totalSlides` and the resolved slide URL list. -/
structure SlideState where
  currentSlideIndex : Int
  totalSlides : Int
  slides : List String
deriving DecidableEq, Repr

/-- The component's initial field values
(`currentSlideIndex = 0`, `totalSlides = 0`, `slides = []`). -/
def initialSlideState : SlideState :=
  { currentSlideIndex := 0, totalSlides := 0, slides := [] }

/-- `canGoToPrevious` from the component: the index is positive. -/
def canGoToPrevious (s : SlideState) : Bool :=
  s.currentSlideIndex > 0

/-- `canGoToNext` from the component: the index is below the last slide. -/
def canGoToNext (s : SlideState) : Bool :=
  s.currentSlideIndex < s.totalSlides - 1

/-- `previousSlide` from the component: decrement when possible, else no-op. -/
def previousSlide (s : SlideState) : SlideState :=
  if canGoToPrevious s then
    { s with currentSlideIndex := s.currentSlideIndex - 1 }
  else s

/-- `nextSlide` from the component: increment when possible; at the last
slide the state is unchanged and the `advanceToNextRound` event is emitted
(the Boolean in the result). -/
def nextSlide (s : SlideState) : SlideState × Bool :=
  if canGoToNext s then
    ({ s with currentSlideIndex := s.currentSlideIndex + 1 }, false)
  else (s, true)

/-- `goToSlide` from the component: jump to an in-range index, else no-op. -/
def goToSlide (s : SlideState) (index : Int) : SlideState :=
  if 0 ≤ index ∧ index < s.totalSlides then
    { s with currentSlideIndex := index }
  else s

/-- The `SlideInfo` input of the component: the field `loadSlides` branches
on. -/
structure SlideRoundInfo where
  round_type : Int
deriving DecidableEq, Repr

/-- An element of the `currentRoundDetails.slides` array: either a filename
string or a value of some other runtime type (which `loadSlides` skips with a
warning). -/
inductive SlideEntry
  | str (filename : String)
  | other
deriving DecidableEq, Repr

/-- The round-details fields consulted by `loadSlides`: the single `slide`
filename for SLIDE rounds and the `slides` array for SLIDE_RANGE rounds. -/
structure SlideRoundDetails where
  slide : Option String
  slides : Option (List SlideEntry)
deriving DecidableEq, Repr

/-- `getSlideFileUrl` from `auth.service.ts`: the API path of a slide file. -/
def getSlideFileUrl (api filename : String) : String :=
  api ++ "/slide_file/" ++ filename

/-- The push loop of `loadSlides` for SLIDE_RANGE rounds: string entries are
resolved to URLs, entries of any other type are skipped. -/
def slideUrls (api : String) : List SlideEntry → List String
  | [] => []
  | .str f :: rest => getSlideFileUrl api f :: slideUrls api rest
  | .other :: rest => slideUrls api rest

/-- `loadSlides` from the component.  Missing inputs return unchanged.  The
slide list is cleared first; a SLIDE round with a filename installs a single
slide at index 0, a SLIDE_RANGE round installs the resolved URLs and keeps
the previous index exactly when the slide count is unchanged and the index
is still in bounds; every early-return branch leaves `totalSlides` and
`currentSlideIndex` as they were (only `slides` was cleared). -/
def loadSlides (api : String) (currentRound : Option SlideRoundInfo)
    (currentRoundDetails : Option SlideRoundDetails) (s : SlideState) :
    SlideState :=
  match currentRound, currentRoundDetails with
  | some r, some d =>
    let previousSlideCount : Int := s.slides.length
    let previousCurrentIndex := s.currentSlideIndex
    if r.round_type = 3 then
      match d.slide with
      | some f =>
        { s with slides := [getSlideFileUrl api f], totalSlides := 1,
                 currentSlideIndex := 0 }
      | none => { s with slides := [] }
    else if r.round_type = 4 then
      match d.slides with
      | some arr =>
        let urls := slideUrls api arr
        let total : Int := urls.length
        { s with slides := urls, totalSlides := total,
                 currentSlideIndex :=
                   if total = previousSlideCount ∧ previousCurrentIndex < total
                   then previousCurrentIndex
                   else 0 }
      | none => { s with slides := [] }
    else { s with slides := [] }
  | _, _ => s

/-- The navigation invariant of the component, strengthened inductively: the
index is never negative, and lies below `totalSlides` whenever any slides are
loaded. -/
def SlideInv (s : SlideState) : Prop :=
  0 ≤ s.currentSlideIndex ∧ (0 < s.totalSlides → s.currentSlideIndex < s.totalSlides)

/-! ## ScenarioEngine (modelled from spec §4.5; the server sources are not in
the repository) -/

/-- Modelled from the spec: a Round of a Scenario (§3); only the round type
is relevant to the state-machine claims. -/
structure Round where
  round_type : Nat
deriving DecidableEq, Repr

/-- Modelled from the spec: a Scenario is an ordered sequence of Rounds. -/
structure Scenario where
  rounds : List Round
deriving DecidableEq, Repr

/-- Modelled from the spec: the Group fields owned by the ScenarioEngine
(§3): the active scenario, the current round index (starting at `-1` on
`startGame`), and the active flag. -/
structure Group where
  active_scenario : Option Scenario
  current_round_index : Int
  game_active : Bool
deriving DecidableEq, Repr

/-- Modelled from the spec: errors of the scenario state machine (§7). -/
inductive EngineError
  | notActive
  | alreadyActive
deriving DecidableEq, Repr

/-- Modelled from the spec: the result of `nextRound` (§4.5): either the new
Round's public fields, the `game_finished` result, or a rejection. -/
inductive NextRoundOutcome
  | success (r : Option Round)
  | gameFinished
  | failure (e : EngineError)
deriving DecidableEq, Repr

/-- Modelled from the spec: `nextRound` (§4.5; the engine source is not in
the repository).  With no active scenario the call is rejected (`NotActive`);
while active, if a next round exists the index is incremented and the new
round returned; if not, the Group transitions to Finished
(`game_active = false`) with a `game_finished` result; while Finished the
same `game_finished` result is returned with no state change. -/
def nextRound (g : Group) : NextRoundOutcome × Group :=
  match g.active_scenario with
  | none => (.failure .notActive, g)
  | some sc =>
    if g.game_active then
      if g.current_round_index + 1 < (sc.rounds.length : Int) then
        (.success (sc.rounds.get? (g.current_round_index + 1).toNat),
         { g with current_round_index := g.current_round_index + 1 })
      else
        (.gameFinished, { g with game_active := false })
    else
      (.gameFinished, g)

/-- Modelled from the spec: `startGame` (§4.5): rejected while a game is
active, otherwise installs the scenario with index `-1` and activates. -/
def startGame (sc : Scenario) (g : Group) : Except EngineError Group :=
  if g.game_active then .error .alreadyActive
  else .ok { active_scenario := some sc, current_round_index := -1, game_active := true }

/-- Modelled from the spec: `endGame` (§4.5): valid from any state; clears
the scenario, resets the index and deactivates. -/
def endGame (_g : Group) : Group :=
  { active_scenario := none, current_round_index := -1, game_active := false }

/-- Iterated application of `nextRound`, keeping only the Group state. -/
def nextRoundIter : Nat → Group → Group
  | 0, g => g
  | n + 1, g => nextRoundIter n (nextRound g).2

/-! ## TelemetryIngestor (modelled from spec §§4.2–4.3; the server sources
are not in the repository) -/

/-- Modelled from the spec: the Board fields touched by telemetry ingestion
(§3): current readings, bounded histories, last-update time. -/
structure Board where
  current_production : Int
  current_consumption : Int
  production_history : List Int
  consumption_history : List Int
  last_updated : Int
  connected : Bool
deriving DecidableEq, Repr

/-- Modelled from the spec: bounded FIFO history append (§4.2): the new value
goes to the back; the oldest entries are evicted once capacity is exceeded. -/
def pushBounded (cap : Nat) (x : Int) (h : List Int) : List Int :=
  let h2 := h ++ [x]
  if h2.length ≤ cap then h2 else h2.drop (h2.length - cap)

/-- Modelled from the spec: `BoardRegistry.recordTelemetry` (§4.2): appends to
both bounded histories and updates the current values, the timestamp and the
connected flag. -/
def recordTelemetry (cap : Nat) (production consumption at_time : Int)
    (b : Board) : Board :=
  { current_production := production
    current_consumption := consumption
    production_history := pushBounded cap production b.production_history
    consumption_history := pushBounded cap consumption b.consumption_history
    last_updated := at_time
    connected := true }

/-- Modelled from the spec: telemetry validation errors (§7). -/
inductive IngestError
  | timeError
  | rangeError
deriving DecidableEq, Repr

/-- Modelled from the spec: the outcome reported by the ingestor. -/
inductive IngestOutcome
  | ok
  | failure (e : IngestError)
deriving DecidableEq, Repr

/-- Modelled from the spec: `TelemetryIngestor` (§4.3; the server source is
not in the repository).  A carried timestamp must fall within the bounded
window around server time (`TimeError` otherwise); values must fit a signed
32-bit range; on success it delegates to `recordTelemetry`; on any validation
failure it returns the specific error with the Board untouched
(validate-then-commit). -/
def submitTelemetry (cap window : Nat) (now timestamp production consumption : Int)
    (b : Board) : IngestOutcome × Board :=
  if (now - timestamp).natAbs > window then
    (.failure .timeError, b)
  else if production < -(2 ^ 31) ∨ 2 ^ 31 ≤ production ∨
      consumption < -(2 ^ 31) ∨ 2 ^ 31 ≤ consumption then
    (.failure .rangeError, b)
  else
    (.ok, recordTelemetry cap production consumption timestamp b)

/-! ## CoefficientResolver (modelled from spec §4.4; the server sources are
not in the repository) -/

/-- Modelled from the spec: a connected plant as reported by a board: its
source type and its reported set-point. -/
structure Plant where
  source_type : Nat
  set_point : ℚ
deriving DecidableEq, Repr

/-- Modelled from the spec: coefficient lookup with silent defaulting (§4.4,
§9): unknown source types default to a coefficient of 1. -/
def lookupCoeff (tbl : List (Nat × ℚ)) (ty : Nat) : ℚ :=
  match tbl.find? (fun e => e.1 = ty) with
  | some e => e.2
  | none => 1

/-- Clamp a value into an interval. -/
def clampQ (lo hi x : ℚ) : ℚ := max lo (min hi x)

/-- Modelled from the spec: the per-plant contribution of the
CoefficientResolver (§4.4): `set_point × coefficient[source_type]`, clamped
to the plant type's configured `[min, max]` range. -/
def effectivePlantProduction (coeffs : List (Nat × ℚ)) (ranges : Nat → ℚ × ℚ)
    (p : Plant) : ℚ :=
  clampQ (ranges p.source_type).1 (ranges p.source_type).2
    (p.set_point * lookupCoeff coeffs p.source_type)

/-- Modelled from the spec: effective production is the sum of the clamped
per-plant contributions over the connected plants (§4.4). -/
def effectiveProduction (coeffs : List (Nat × ℚ)) (ranges : Nat → ℚ × ℚ)
    (plants : List Plant) : ℚ :=
  (plants.map (effectivePlantProduction coeffs ranges)).sum

/-! ## BinaryCodec (modelled from spec §§4.1 and 6; the server sources are
not in the repository).  Bytes are `Nat` values below 256; all multi-byte
integers are big-endian; signed 32-bit values travel in two's complement. -/

/-- A signed value fits in 32 bits. -/
def Int32Range (i : Int) : Prop := -(2 ^ 31) ≤ i ∧ i < 2 ^ 31

instance (i : Int) : Decidable (Int32Range i) := by
  unfold Int32Range; infer_instance

/-- Two's-complement image of a signed 32-bit value. -/
def toU32 (i : Int) : Nat := (i % (2 ^ 32 : Int)).toNat

/-- Signed reading of an unsigned 32-bit value. -/
def fromU32 (n : Nat) : Int :=
  if n < 2 ^ 31 then (n : Int) else (n : Int) - 2 ^ 32

/-- Big-endian byte split of an unsigned 32-bit value. -/
def be32 (v : Nat) : List Nat :=
  [v / 2 ^ 24 % 256, v / 2 ^ 16 % 256, v / 2 ^ 8 % 256, v % 256]

/-- Big-endian byte merge of four bytes. -/
def deBE32 (b0 b1 b2 b3 : Nat) : Nat :=
  ((b0 * 256 + b1) * 256 + b2) * 256 + b3

/-- Big-endian encoding of a signed 32-bit value. -/
def encInt32 (i : Int) : List Nat := be32 (toU32 i)

/-- Big-endian decoding of a signed 32-bit value. -/
def decInt32 (b0 b1 b2 b3 : Nat) : Int := fromU32 (deBE32 b0 b1 b2 b3)

/-- Modelled from the spec: the device-facing protocol error (§7). -/
inductive ProtocolError
  | protocolError
deriving DecidableEq, Repr

/-- Modelled from the spec: the PowerData packet (§6): production and
consumption as int32 milliwatts (8 bytes on the wire). -/
structure PowerData where
  production : Int
  consumption : Int
deriving DecidableEq, Repr

/-- PowerData fields fit int32. -/
def PowerData.WF (p : PowerData) : Prop :=
  Int32Range p.production ∧ Int32Range p.consumption

/-- Modelled from the spec: the RegistrationResponse packet (§6):
`success:uint8, msg_len:uint8, message:char[N]`; the message is kept as its
byte sequence. -/
structure RegistrationResponse where
  success : Nat
  message : List Nat
deriving DecidableEq, Repr

/-- RegistrationResponse fields fit their wire widths. -/
def RegistrationResponse.WF (r : RegistrationResponse) : Prop :=
  r.success < 256 ∧ r.message.length ≤ 255 ∧ ∀ b ∈ r.message, b < 256

/-- Modelled from the spec: one entry of a ConnectedProduction report:
`plant_id:uint32, set_power:int32`. -/
structure ProdEntry where
  plant_id : Nat
  set_power : Int
deriving DecidableEq, Repr

/-- A production entry fits its wire widths. -/
def ProdEntry.WF (e : ProdEntry) : Prop :=
  e.plant_id < 2 ^ 32 ∧ Int32Range e.set_power

/-- Modelled from the spec: the ConnectedProduction packet (§6):
`count:uint8` then `N x (plant_id:uint32, set_power:int32)`. -/
structure ConnectedProduction where
  plants : List ProdEntry
deriving DecidableEq, Repr

/-- A ConnectedProduction packet fits its wire widths. -/
def ConnectedProduction.WF (c : ConnectedProduction) : Prop :=
  c.plants.length ≤ 255 ∧ ∀ e ∈ c.plants, e.WF

/-- Modelled from the spec: the ConnectedConsumption packet (§6):
`count:uint8` then `N x consumer_id:uint32`. -/
structure ConnectedConsumption where
  consumers : List Nat
deriving DecidableEq, Repr

/-- A ConnectedConsumption packet fits its wire widths. -/
def ConnectedConsumption.WF (c : ConnectedConsumption) : Prop :=
  c.consumers.length ≤ 255 ∧ ∀ x ∈ c.consumers, x < 2 ^ 32

/-- Modelled from the spec: one coefficient entry of a PollResponse:
`id:uint8, value:int32`. -/
structure CoeffEntry where
  id : Nat
  value : Int
deriving DecidableEq, Repr

/-- A coefficient entry fits its wire widths. -/
def CoeffEntry.WF (e : CoeffEntry) : Prop :=
  e.id < 256 ∧ Int32Range e.value

/-- Modelled from the spec: the PollResponse packet (§6):
`prod_count:uint8, P x (source_id:uint8, coeff:int32), cons_count:uint8,
C x (building_id:uint8, value:int32)`. -/
structure PollResponse where
  production_coeffs : List CoeffEntry
  consumption_coeffs : List CoeffEntry
deriving DecidableEq, Repr

/-- A PollResponse fits its wire widths. -/
def PollResponse.WF (p : PollResponse) : Prop :=
  p.production_coeffs.length ≤ 255 ∧ p.consumption_coeffs.length ≤ 255 ∧
  (∀ e ∈ p.production_coeffs, e.WF) ∧ ∀ e ∈ p.consumption_coeffs, e.WF

/-- Modelled from the spec: PowerData encoder (§6). -/
def encodePowerData (p : PowerData) : List Nat :=
  encInt32 p.production ++ encInt32 p.consumption

/-- Modelled from the spec: PowerData decoder; any length other than the
fixed 8 bytes is a protocol error (§4.1). -/
def decodePowerData : List Nat → Except ProtocolError PowerData
  | [a0, a1, a2, a3, b0, b1, b2, b3] =>
    .ok ⟨decInt32 a0 a1 a2 a3, decInt32 b0 b1 b2 b3⟩
  | _ => .error .protocolError

/-- Modelled from the spec: RegistrationResponse encoder (§6). -/
def encodeRegistrationResponse (r : RegistrationResponse) : List Nat :=
  r.success :: r.message.length :: r.message

/-- Modelled from the spec: RegistrationResponse decoder; the declared
`msg_len` must match the remaining bytes (§4.1). -/
def decodeRegistrationResponse : List Nat → Except ProtocolError RegistrationResponse
  | success :: msg_len :: rest =>
    if rest.length = msg_len then .ok ⟨success, rest⟩ else .error .protocolError
  | _ => .error .protocolError

/-- Modelled from the spec: ConnectedProduction entry encoder (8 bytes). -/
def encodeProdEntry (e : ProdEntry) : List Nat :=
  be32 e.plant_id ++ encInt32 e.set_power

/-- Modelled from the spec: ConnectedProduction encoder (§6). -/
def encodeConnectedProduction (c : ConnectedProduction) : List Nat :=
  c.plants.length :: (c.plants.map encodeProdEntry).flatten

/-- Parser for `n` consecutive 8-byte production entries; the bytes must be
consumed exactly. -/
def parseProdEntries : Nat → List Nat → Option (List ProdEntry)
  | 0, [] => some []
  | 0, _ :: _ => none
  | n + 1, a0 :: a1 :: a2 :: a3 :: b0 :: b1 :: b2 :: b3 :: rest =>
    (parseProdEntries n rest).map
      (fun l => ⟨deBE32 a0 a1 a2 a3, decInt32 b0 b1 b2 b3⟩ :: l)
  | _ + 1, _ => none

/-- Modelled from the spec: ConnectedProduction decoder; a declared count
that does not match the remaining bytes is a protocol error (§4.1). -/
def decodeConnectedProduction : List Nat → Except ProtocolError ConnectedProduction
  | count :: rest =>
    match parseProdEntries count rest with
    | some plants => .ok ⟨plants⟩
    | none => .error .protocolError
  | [] => .error .protocolError

/-- Modelled from the spec: ConnectedConsumption encoder (§6). -/
def encodeConnectedConsumption (c : ConnectedConsumption) : List Nat :=
  c.consumers.length :: (c.consumers.map be32).flatten

/-- Parser for `n` consecutive 4-byte consumer ids; the bytes must be
consumed exactly. -/
def parseConsumerIds : Nat → List Nat → Option (List Nat)
  | 0, [] => some []
  | 0, _ :: _ => none
  | n + 1, a0 :: a1 :: a2 :: a3 :: rest =>
    (parseConsumerIds n rest).map (fun l => deBE32 a0 a1 a2 a3 :: l)
  | _ + 1, _ => none

/-- Modelled from the spec: ConnectedConsumption decoder; a declared count
that does not match the remaining bytes is a protocol error (§4.1). -/
def decodeConnectedConsumption : List Nat → Except ProtocolError ConnectedConsumption
  | count :: rest =>
    match parseConsumerIds count rest with
    | some consumers => .ok ⟨consumers⟩
    | none => .error .protocolError
  | [] => .error .protocolError

/-- Modelled from the spec: PollResponse coefficient entry encoder (5
bytes). -/
def encodeCoeffEntry (e : CoeffEntry) : List Nat :=
  e.id :: encInt32 e.value

/-- Modelled from the spec: PollResponse encoder (§6). -/
def encodePollResponse (p : PollResponse) : List Nat :=
  p.production_coeffs.length :: (p.production_coeffs.map encodeCoeffEntry).flatten ++
    p.consumption_coeffs.length ::
      (p.consumption_coeffs.map encodeCoeffEntry).flatten

/-- Parser for `n` consecutive 5-byte coefficient entries, returning the
unread remainder. -/
def parseCoeffEntries : Nat → List Nat → Option (List CoeffEntry × List Nat)
  | 0, rest => some ([], rest)
  | n + 1, i :: b0 :: b1 :: b2 :: b3 :: rest =>
    (parseCoeffEntries n rest).map
      (fun pr => (⟨i, decInt32 b0 b1 b2 b3⟩ :: pr.1, pr.2))
  | _ + 1, _ => none

/-- Modelled from the spec: PollResponse decoder; both declared counts must
match the bytes exactly, with nothing left over (§4.1). -/
def decodePollResponse : List Nat → Except ProtocolError PollResponse
  | prod_count :: rest =>
    match parseCoeffEntries prod_count rest with
    | some (prods, cons_count :: rest2) =>
      match parseCoeffEntries cons_count rest2 with
      | some (cons, []) => .ok ⟨prods, cons⟩
      | _ => .error .protocolError
    | _ => .error .protocolError
  | [] => .error .protocolError

/-- Modelled from the spec: the wire packets of §6 covered by the round-trip
law, as one sum type. -/
inductive Packet
  | powerData (p : PowerData)
  | registrationResponse (r : RegistrationResponse)
  | connectedProduction (c : ConnectedProduction)
  | connectedConsumption (c : ConnectedConsumption)
  | pollResponse (p : PollResponse)
deriving DecidableEq, Repr

/-- The packet type tag, selecting which decoder applies (the wire format is
not self-describing; each endpoint knows which packet it expects). -/
inductive PacketKind
  | powerData
  | registrationResponse
  | connectedProduction
  | connectedConsumption
  | pollResponse
deriving DecidableEq, Repr

/-- The kind of a packet. -/
def Packet.kind : Packet → PacketKind
  | .powerData _ => .powerData
  | .registrationResponse _ => .registrationResponse
  | .connectedProduction _ => .connectedProduction
  | .connectedConsumption _ => .connectedConsumption
  | .pollResponse _ => .pollResponse

/-- A packet fits all its wire widths. -/
def Packet.WF : Packet → Prop
  | .powerData p => p.WF
  | .registrationResponse r => r.WF
  | .connectedProduction c => c.WF
  | .connectedConsumption c => c.WF
  | .pollResponse p => p.WF

/-- Modelled from the spec: the encoder of every §6 packet. -/
def encodePacket : Packet → List Nat
  | .powerData p => encodePowerData p
  | .registrationResponse r => encodeRegistrationResponse r
  | .connectedProduction c => encodeConnectedProduction c
  | .connectedConsumption c => encodeConnectedConsumption c
  | .pollResponse p => encodePollResponse p

/-- Modelled from the spec: the decoder of every §6 packet, dispatched on the
expected kind. -/
def decodePacket : PacketKind → List Nat → Except ProtocolError Packet
  | .powerData, bs => (decodePowerData bs).map .powerData
  | .registrationResponse, bs => (decodeRegistrationResponse bs).map .registrationResponse
  | .connectedProduction, bs => (decodeConnectedProduction bs).map .connectedProduction
  | .connectedConsumption, bs => (decodeConnectedConsumption bs).map .connectedConsumption
  | .pollResponse, bs => (decodePollResponse bs).map .pollResponse

/-! ## Claim theorems -/

/-- C1: for every board snapshot with numeric production and consumption
values, the grid-status classification computes
`balance = production - consumption` and assigns green exactly when
`|balance| ≤ 1`, orange exactly when `1 < |balance| ≤ 5`, and red otherwise,
and this coincides with the spec's tolerance-band classification at
thresholds ±1 and ±5. -/
theorem c1_grid_status_tolerance_bands (production consumption : Int) :
    (getGridStatusIcon false production consumption = .green ↔
      |production - consumption| ≤ 1) ∧
    (getGridStatusIcon false production consumption = .orange ↔
      1 < |production - consumption| ∧ |production - consumption| ≤ 5) ∧
    (getGridStatusIcon false production consumption = .red ↔
      5 < |production - consumption|) ∧
    bandOfStatus (getGridStatusIcon false production consumption) =
      some (scoreBand (production - consumption)) := by
  simp only [getGridStatusIcon, scoreBand]
  split_ifs with h0 h1 h2 <;> simp_all [bandOfStatus] <;> omega

/-- C2: the dashboard's `nextRound` response handler switches to the setup
view and clears the stored round exactly on a `game_finished` status;
otherwise it stores the round, switches to the presentation view on round
types 3 and 4, to the game view on 1 and 2, and leaves the view unchanged on
every other round type. -/
theorem c2_next_round_response_handler (s : DashboardState)
    (r : NextRoundResponse) :
    (r.status = "game_finished" →
      (handleNextRoundResponse s r).currentView = .setup ∧
      (handleNextRoundResponse s r).currentRound = none) ∧
    (r.status ≠ "game_finished" →
      (handleNextRoundResponse s r).currentRound = some r ∧
      ((r.round_type = 3 ∨ r.round_type = 4) →
        (handleNextRoundResponse s r).currentView = .presentation) ∧
      ((r.round_type = 1 ∨ r.round_type = 2) →
        (handleNextRoundResponse s r).currentView = .game) ∧
      (r.round_type ≠ 1 → r.round_type ≠ 2 → r.round_type ≠ 3 →
        r.round_type ≠ 4 →
        (handleNextRoundResponse s r).currentView = s.currentView)) ∧
    ((handleNextRoundResponse s r).currentRound = none ↔
      r.status = "game_finished") := by
  unfold handleNextRoundResponse
  unfold RoundType.DAY RoundType.NIGHT RoundType.SLIDE RoundType.SLIDE_RANGE
  split_ifs with h0 h1 h2 <;> simp_all <;> omega

/-- C2 witness: a non-finished response of round type 3 stores the round and
switches to the presentation view. -/
theorem c2_next_round_response_handler_witness :
    (handleNextRoundResponse ⟨.setup, none, true⟩ ⟨"success", 3⟩).currentView =
      .presentation ∧
    (handleNextRoundResponse ⟨.setup, none, true⟩ ⟨"success", 3⟩).currentRound =
      some ⟨"success", 3⟩ := by
  have h := c2_next_round_response_handler ⟨.setup, none, true⟩ ⟨"success", 3⟩
  exact ⟨(h.2.1 (by decide)).2.1 (Or.inl rfl), (h.2.1 (by decide)).1⟩

/-- C3: the numeric round-type encoding is DAY=1, NIGHT=2, SLIDE=3,
SLIDE_RANGE=4; the name mapping returns DAY for 1, NIGHT for 2, SLIDES for 3
and 4 and UNKNOWN otherwise; and during an active game the view
determination classifies 3 and 4 as presentation rounds and 1 and 2 as game
rounds. -/
theorem c3_round_type_encoding :
    (RoundType.DAY = 1 ∧ RoundType.NIGHT = 2 ∧ RoundType.SLIDE = 3 ∧
      RoundType.SLIDE_RANGE = 4) ∧
    (getRoundTypeName 1 = "DAY" ∧ getRoundTypeName 2 = "NIGHT" ∧
      getRoundTypeName 3 = "SLIDES" ∧ getRoundTypeName 4 = "SLIDES") ∧
    (∀ n : Int, n ≠ 1 → n ≠ 2 → n ≠ 3 → n ≠ 4 →
      getRoundTypeName n = "UNKNOWN") ∧
    (∀ (gs : GameStatus) (rd : RoundDetails),
      gs.game_active = true → gs.current_round ≠ 0 →
      ((rd.round_type = 3 ∨ rd.round_type = 4) →
        determineViewFromGameState gs (some rd) = .presentation) ∧
      ((rd.round_type = 1 ∨ rd.round_type = 2) →
        determineViewFromGameState gs (some rd) = .game)) := by
  refine ⟨⟨rfl, rfl, rfl, rfl⟩, ⟨by decide, by decide, by decide, by decide⟩,
    ?_, ?_⟩
  · intro n h1 h2 h3 h4
    unfold getRoundTypeName
    unfold RoundType.DAY RoundType.NIGHT RoundType.SLIDE RoundType.SLIDE_RANGE
    split_ifs <;> simp_all
  · intro gs rd hact hr
    unfold determineViewFromGameState
    split_ifs <;> simp_all <;> omega

/-- C3 witness: the classifications at concrete inputs: round type 7 is
UNKNOWN, and with an active game in round 2, type 4 shows the presentation
view while type 2 shows the game view. -/
theorem c3_round_type_encoding_witness :
    getRoundTypeName 7 = "UNKNOWN" ∧
    determineViewFromGameState ⟨2, true⟩ (some ⟨4⟩) = .presentation ∧
    determineViewFromGameState ⟨2, true⟩ (some ⟨2⟩) = .game := by
  have h := c3_round_type_encoding
  exact ⟨h.2.2.1 7 (by decide) (by decide) (by decide) (by decide),
    (h.2.2.2 ⟨2, true⟩ ⟨4⟩ rfl (by decide)).1 (Or.inr rfl),
    (h.2.2.2 ⟨2, true⟩ ⟨2⟩ rfl (by decide)).2 (Or.inr rfl)⟩

/-- C10: in the slide-presentation component every navigation operation
(`previousSlide`, `nextSlide`, `goToSlide`, `loadSlides`) preserves the
navigation invariant (index non-negative, and below `totalSlides` whenever
`totalSlides > 0`), which holds initially; `nextSlide` at the last slide
leaves the state unchanged and emits `advanceToNextRound`; `goToSlide` with
an out-of-range index is a no-op. -/
theorem c10_slide_navigation_invariant :
    SlideInv initialSlideState ∧
    (∀ s, SlideInv s → 0 < s.totalSlides →
      0 ≤ s.currentSlideIndex ∧ s.currentSlideIndex < s.totalSlides) ∧
    (∀ s, SlideInv s → SlideInv (previousSlide s)) ∧
    (∀ s, SlideInv s → SlideInv (nextSlide s).1) ∧
    (∀ s i, SlideInv s → SlideInv (goToSlide s i)) ∧
    (∀ api currentRound currentRoundDetails s, SlideInv s →
      SlideInv (loadSlides api currentRound currentRoundDetails s)) ∧
    (∀ s, s.currentSlideIndex = s.totalSlides - 1 → nextSlide s = (s, true)) ∧
    (∀ s i, ¬(0 ≤ i ∧ i < s.totalSlides) → goToSlide s i = s) := by
  refine ⟨?_, ?_, ?_, ?_, ?_, ?_, ?_, ?_⟩
  · simp [SlideInv, initialSlideState]
  · exact fun s hs ht => ⟨hs.1, hs.2 ht⟩
  · intro s hs
    simp only [previousSlide, canGoToPrevious, decide_eq_true_eq]
    split_ifs with h <;> simp_all [SlideInv] <;> omega
  · intro s hs
    simp only [nextSlide, canGoToNext, decide_eq_true_eq]
    split_ifs with h <;> simp_all [SlideInv] <;> omega
  · intro s i hs
    simp only [goToSlide]
    split_ifs with h <;> simp_all [SlideInv] <;> omega
  · intro api round details s hs
    rcases round with _ | r
    · exact hs
    rcases details with _ | d
    · exact hs
    rcases d with ⟨sl, sls⟩
    simp only [loadSlides]
    rcases sl with _ | f <;> rcases sls with _ | arr <;>
      split_ifs <;> simp_all [SlideInv] <;> omega
  · intro s h
    simp only [nextSlide, canGoToNext, decide_eq_true_eq]
    rw [if_neg (by omega)]
  · intro s i h
    simp only [goToSlide]
    rw [if_neg h]

/-- C10 witness: concrete runs of each operation: from a two-slide state at
index 0, the invariant survives `loadSlides`, `previousSlide`, `nextSlide`
and `goToSlide`, `nextSlide` at the last slide only emits the event, and an
out-of-range `goToSlide` is a no-op. -/
theorem c10_slide_navigation_invariant_witness :
    SlideInv (previousSlide ⟨0, 2, ["a", "b"]⟩) ∧
    SlideInv (nextSlide ⟨0, 2, ["a", "b"]⟩).1 ∧
    SlideInv (goToSlide ⟨0, 2, ["a", "b"]⟩ 5) ∧
    SlideInv (loadSlides ("api") (some ⟨4⟩)
      (some ⟨none, some [.str ("x"), .other]⟩) ⟨0, 2, ["a", "b"]⟩) ∧
    nextSlide ⟨1, 2, ["a", "b"]⟩ = (⟨1, 2, ["a", "b"]⟩, true) ∧
    goToSlide ⟨0, 2, ["a", "b"]⟩ 5 = ⟨0, 2, ["a", "b"]⟩ := by
  have h := c10_slide_navigation_invariant
  have hinv : SlideInv ⟨0, 2, ["a", "b"]⟩ := by constructor <;> simp
  exact ⟨h.2.2.1 _ hinv, h.2.2.2.1 _ hinv, h.2.2.2.2.1 _ 5 hinv,
    h.2.2.2.2.2.1 ("api") _ _ _ hinv,
    h.2.2.2.2.2.2.1 ⟨1, 2, ["a", "b"]⟩ (by simp),
    h.2.2.2.2.2.2.2 ⟨0, 2, ["a", "b"]⟩ 5 (by simp)⟩

/-- C4: exhausting the last round moves the Group to Finished
(`game_active = false`, index unchanged) with a `game_finished` result, and
in the Finished state `nextRound` is idempotent: every call returns the same
`game_finished` result, never an error, and leaves the Group unchanged. -/
theorem c4_next_round_finished_idempotent :
    (∀ (g : Group) (sc : Scenario), g.active_scenario = some sc →
      g.game_active = true →
      ¬(g.current_round_index + 1 < (sc.rounds.length : Int)) →
      nextRound g = (.gameFinished, { g with game_active := false })) ∧
    (∀ (g : Group) (sc : Scenario), g.active_scenario = some sc →
      g.game_active = false →
      nextRound g = (.gameFinished, g) ∧ ∀ n, nextRoundIter n g = g) := by
  refine ⟨?_, ?_⟩
  · intro g sc hsc hact hno
    simp [nextRound, hsc, hact, hno]
  · intro g sc hsc hact
    have hfix : nextRound g = (.gameFinished, g) := by
      simp [nextRound, hsc, hact]
    refine ⟨hfix, ?_⟩
    intro n
    induction n with
    | zero => rfl
    | succ n ih => simp only [nextRoundIter, hfix]; exact ih

/-- C4 witness: a one-round scenario already at its last round transitions to
Finished with a `game_finished` result, and from the Finished state three
further calls return `game_finished` each time with no state change. -/
theorem c4_next_round_finished_idempotent_witness :
    nextRound ⟨some ⟨[⟨1⟩]⟩, 0, true⟩ = (.gameFinished, ⟨some ⟨[⟨1⟩]⟩, 0, false⟩) ∧
    nextRound ⟨some ⟨[⟨1⟩]⟩, 0, false⟩ = (.gameFinished, ⟨some ⟨[⟨1⟩]⟩, 0, false⟩) ∧
    nextRoundIter 3 ⟨some ⟨[⟨1⟩]⟩, 0, false⟩ = ⟨some ⟨[⟨1⟩]⟩, 0, false⟩ := by
  have h1 := c4_next_round_finished_idempotent.1 ⟨some ⟨[⟨1⟩]⟩, 0, true⟩ ⟨[⟨1⟩]⟩
    rfl rfl (by decide)
  have h2 := c4_next_round_finished_idempotent.2 ⟨some ⟨[⟨1⟩]⟩, 0, false⟩ ⟨[⟨1⟩]⟩
    rfl rfl
  exact ⟨h1, h2.1, h2.2 3⟩

/-- C7: a telemetry submission whose timestamp falls outside the accepted
window around server time returns `TimeError` and leaves the Board entirely
unchanged: the current production keeps its prior value and no history entry
is appended. -/
theorem c7_time_error_atomicity (cap window : Nat)
    (now timestamp production consumption : Int) (b : Board)
    (h : (now - timestamp).natAbs > window) :
    submitTelemetry cap window now timestamp production consumption b =
      (.failure .timeError, b) ∧
    (submitTelemetry cap window now timestamp production consumption b).2.current_production =
      b.current_production ∧
    (submitTelemetry cap window now timestamp production consumption b).2.production_history =
      b.production_history ∧
    (submitTelemetry cap window now timestamp production consumption b).2.consumption_history =
      b.consumption_history := by
  have hs : submitTelemetry cap window now timestamp production consumption b =
      (.failure .timeError, b) := by
    simp [submitTelemetry, h]
  exact ⟨hs, by rw [hs], by rw [hs], by rw [hs]⟩

/-- C7 witness: a submission 20 time units in the past against a window of 5
is rejected with `TimeError` at a concrete Board, which is returned
untouched. -/
theorem c7_time_error_atomicity_witness :
    submitTelemetry 10 5 100 80 1000 800 ⟨7, 9, [7], [9], 80, true⟩ =
      (.failure .timeError, ⟨7, 9, [7], [9], 80, true⟩) := by
  exact (c7_time_error_atomicity 10 5 100 80 1000 800
    ⟨7, 9, [7], [9], 80, true⟩ (by decide)).1

/-- C8: the coefficient resolver computes a plant's effective production as
`set_point × coefficient[source_type]` clamped to the plant type's
configured range: above the maximum it yields exactly the maximum, it never
exceeds the maximum, and an in-range product passes through unchanged. -/
theorem c8_coefficient_clamp (coeffs : List (Nat × ℚ)) (ranges : Nat → ℚ × ℚ)
    (p : Plant)
    (hle : (ranges p.source_type).1 ≤ (ranges p.source_type).2) :
    effectivePlantProduction coeffs ranges p =
      clampQ (ranges p.source_type).1 (ranges p.source_type).2
        (p.set_point * lookupCoeff coeffs p.source_type) ∧
    (p.set_point * lookupCoeff coeffs p.source_type > (ranges p.source_type).2 →
      effectivePlantProduction coeffs ranges p = (ranges p.source_type).2) ∧
    effectivePlantProduction coeffs ranges p ≤ (ranges p.source_type).2 ∧
    ((ranges p.source_type).1 ≤ p.set_point * lookupCoeff coeffs p.source_type →
      p.set_point * lookupCoeff coeffs p.source_type ≤ (ranges p.source_type).2 →
      effectivePlantProduction coeffs ranges p =
        p.set_point * lookupCoeff coeffs p.source_type) := by
  unfold effectivePlantProduction clampQ
  refine ⟨rfl, ?_, ?_, ?_⟩
  · intro hgt
    rw [min_eq_left (le_of_lt hgt), max_eq_right hle]
  · exact max_le hle (min_le_left _ _)
  · intro h1 h2
    rw [min_eq_right h2, max_eq_right h1]

/-- C8 witness: a plant of type 1 reporting set-point 20 under coefficient 2
against a configured range [0, 10] resolves to exactly the maximum 10. -/
theorem c8_coefficient_clamp_witness :
    effectivePlantProduction [(1, 2)] (fun _ => (0, 10)) ⟨1, 20⟩ = 10 := by
  have h := (c8_coefficient_clamp [(1, 2)] (fun _ => (0, 10)) ⟨1, 20⟩
    (by norm_num)).2.1
  apply h
  have hl : lookupCoeff [(1, 2)] 1 = 2 := rfl
  show (20 : ℚ) * lookupCoeff [(1, 2)] 1 > 10
  rw [hl]
  norm_num

theorem toU32_lt (i : Int) : toU32 i < 2 ^ 32 := by
  unfold toU32; omega

theorem deBE32_be32 (v : Nat) (h : v < 2 ^ 32) :
    deBE32 (v / 2 ^ 24 % 256) (v / 2 ^ 16 % 256) (v / 2 ^ 8 % 256) (v % 256) = v := by
  unfold deBE32; omega

theorem fromU32_toU32 (i : Int) (h : Int32Range i) : fromU32 (toU32 i) = i := by
  obtain ⟨h1, h2⟩ := h
  unfold fromU32 toU32
  split_ifs <;> omega

theorem decInt32_enc (i : Int) (h : Int32Range i) :
    decInt32 (toU32 i / 2 ^ 24 % 256) (toU32 i / 2 ^ 16 % 256)
      (toU32 i / 2 ^ 8 % 256) (toU32 i % 256) = i := by
  unfold decInt32
  rw [deBE32_be32 _ (toU32_lt i)]
  exact fromU32_toU32 i h

theorem parseProdEntries_encode (l : List ProdEntry) (h : ∀ e ∈ l, e.WF) :
    parseProdEntries l.length (l.map encodeProdEntry).flatten = some l := by
  induction l with
  | nil => rfl
  | cons a t ih =>
    obtain ⟨hid, hsp⟩ := h a (List.mem_cons_self a t)
    simp only [List.map_cons, List.flatten_cons, List.length_cons,
      encodeProdEntry, encInt32, be32, List.cons_append, List.nil_append]
    simp only [parseProdEntries]
    rw [ih (fun e he => h e (List.mem_cons_of_mem a he))]
    rw [deBE32_be32 a.plant_id hid, decInt32_enc a.set_power hsp]
    rfl

theorem parseConsumerIds_encode (l : List Nat) (h : ∀ x ∈ l, x < 2 ^ 32) :
    parseConsumerIds l.length (l.map be32).flatten = some l := by
  induction l with
  | nil => rfl
  | cons a t ih =>
    have hid := h a (List.mem_cons_self a t)
    simp only [List.map_cons, List.flatten_cons, List.length_cons, be32,
      List.cons_append, List.nil_append]
    simp only [parseConsumerIds]
    rw [ih (fun x hx => h x (List.mem_cons_of_mem a hx))]
    rw [deBE32_be32 a hid]
    rfl

theorem parseCoeffEntries_encode (l : List CoeffEntry) (suffix : List Nat)
    (h : ∀ e ∈ l, e.WF) :
    parseCoeffEntries l.length ((l.map encodeCoeffEntry).flatten ++ suffix) =
      some (l, suffix) := by
  induction l with
  | nil => rfl
  | cons a t ih =>
    obtain ⟨_, hv⟩ := h a (List.mem_cons_self a t)
    simp only [List.map_cons, List.flatten_cons, List.length_cons,
      encodeCoeffEntry, encInt32, be32, List.cons_append, List.append_assoc,
      List.nil_append]
    simp only [parseCoeffEntries]
    rw [ih (fun e he => h e (List.mem_cons_of_mem a he))]
    rw [decInt32_enc a.value hv]
    rfl

theorem parseProdEntries_some_length {n : Nat} {bs : List Nat}
    {l : List ProdEntry} (h : parseProdEntries n bs = some l) :
    bs.length = 8 * n := by
  induction n generalizing bs l with
  | zero =>
    cases bs with
    | nil => rfl
    | cons a t => simp [parseProdEntries] at h
  | succ n ih =>
    rcases bs with _ | ⟨a0, _ | ⟨a1, _ | ⟨a2, _ | ⟨a3, _ | ⟨a4, _ | ⟨a5,
      _ | ⟨a6, _ | ⟨a7, rest⟩⟩⟩⟩⟩⟩⟩⟩ <;>
      simp only [parseProdEntries, reduceCtorEq] at h
    rw [Option.map_eq_some'] at h
    obtain ⟨l', hl', _⟩ := h
    have := ih hl'
    simp only [List.length_cons]
    omega

theorem parseConsumerIds_some_length {n : Nat} {bs : List Nat}
    {l : List Nat} (h : parseConsumerIds n bs = some l) :
    bs.length = 4 * n := by
  induction n generalizing bs l with
  | zero =>
    cases bs with
    | nil => rfl
    | cons a t => simp [parseConsumerIds] at h
  | succ n ih =>
    rcases bs with _ | ⟨a0, _ | ⟨a1, _ | ⟨a2, _ | ⟨a3, rest⟩⟩⟩⟩ <;>
      simp only [parseConsumerIds, reduceCtorEq] at h
    rw [Option.map_eq_some'] at h
    obtain ⟨l', hl', _⟩ := h
    have := ih hl'
    simp only [List.length_cons]
    omega

theorem parseCoeffEntries_some_length {n : Nat} {bs : List Nat}
    {l : List CoeffEntry} {rem : List Nat}
    (h : parseCoeffEntries n bs = some (l, rem)) :
    l.length = n ∧ bs.length = 5 * n + rem.length := by
  induction n generalizing bs l rem with
  | zero =>
    simp only [parseCoeffEntries, Option.some.injEq, Prod.mk.injEq] at h
    obtain ⟨h1, h2⟩ := h
    subst h1; subst h2
    simp
  | succ n ih =>
    rcases bs with _ | ⟨a0, _ | ⟨a1, _ | ⟨a2, _ | ⟨a3, _ | ⟨a4, rest⟩⟩⟩⟩⟩ <;>
      simp only [parseCoeffEntries, reduceCtorEq] at h
    rw [Option.map_eq_some'] at h
    obtain ⟨⟨l', rem'⟩, hl', heq⟩ := h
    obtain ⟨hll, hbl⟩ := ih hl'
    obtain ⟨h1, h2⟩ := Prod.mk.injEq .. ▸ heq
    subst h2
    simp only [← h1, List.length_cons]
    omega

theorem decodePowerData_encode (p : PowerData) (h : p.WF) :
    decodePowerData (encodePowerData p) = .ok p := by
  obtain ⟨h1, h2⟩ := h
  simp only [encodePowerData, encInt32, be32, List.cons_append,
    List.nil_append, decodePowerData]
  rw [decInt32_enc p.production h1, decInt32_enc p.consumption h2]

theorem decodeRegistrationResponse_encode (r : RegistrationResponse) :
    decodeRegistrationResponse (encodeRegistrationResponse r) = .ok r := by
  simp [encodeRegistrationResponse, decodeRegistrationResponse]

theorem decodeConnectedProduction_encode (c : ConnectedProduction)
    (h : c.WF) : decodeConnectedProduction (encodeConnectedProduction c) = .ok c := by
  obtain ⟨_, hwf⟩ := h
  simp only [encodeConnectedProduction, decodeConnectedProduction]
  rw [parseProdEntries_encode c.plants hwf]

theorem decodeConnectedConsumption_encode (c : ConnectedConsumption)
    (h : c.WF) : decodeConnectedConsumption (encodeConnectedConsumption c) = .ok c := by
  obtain ⟨_, hwf⟩ := h
  simp only [encodeConnectedConsumption, decodeConnectedConsumption]
  rw [parseConsumerIds_encode c.consumers hwf]

theorem decodePollResponse_encode (p : PollResponse) (h : p.WF) :
    decodePollResponse (encodePollResponse p) = .ok p := by
  obtain ⟨_, _, hp, hc⟩ := h
  simp only [encodePollResponse, List.cons_append, decodePollResponse]
  rw [parseCoeffEntries_encode p.production_coeffs _ hp]
  have hcn := parseCoeffEntries_encode p.consumption_coeffs [] hc
  rw [List.append_nil] at hcn
  simp only [hcn]

/-- C5: for every packet of every §6 packet type that fits its wire widths,
decoding its big-endian encoding returns exactly the original packet. -/
theorem c5_packet_round_trip (p : Packet) (h : p.WF) :
    decodePacket p.kind (encodePacket p) = .ok p := by
  cases p with
  | powerData q =>
    simp only [Packet.kind, encodePacket, decodePacket,
      decodePowerData_encode q h, Except.map]
  | registrationResponse q =>
    simp only [Packet.kind, encodePacket, decodePacket,
      decodeRegistrationResponse_encode q, Except.map]
  | connectedProduction q =>
    simp only [Packet.kind, encodePacket, decodePacket,
      decodeConnectedProduction_encode q h, Except.map]
  | connectedConsumption q =>
    simp only [Packet.kind, encodePacket, decodePacket,
      decodeConnectedConsumption_encode q h, Except.map]
  | pollResponse q =>
    simp only [Packet.kind, encodePacket, decodePacket,
      decodePollResponse_encode q h, Except.map]

/-- C5 witness: the round trip at the boundary values: a PowerData packet
with production `0x7FFFFFFF`, a ConnectedProduction packet with count 0 and
one with count 255. -/
theorem c5_packet_round_trip_witness :
    (Packet.powerData ⟨2147483647, 0⟩).WF ∧
    decodePacket (Packet.powerData ⟨2147483647, 0⟩).kind
        (encodePacket (.powerData ⟨2147483647, 0⟩)) =
      .ok (.powerData ⟨2147483647, 0⟩) ∧
    (Packet.connectedProduction ⟨[]⟩).WF ∧
    decodePacket (Packet.connectedProduction ⟨[]⟩).kind
        (encodePacket (.connectedProduction ⟨[]⟩)) =
      .ok (.connectedProduction ⟨[]⟩) ∧
    (Packet.connectedProduction ⟨List.replicate 255 ⟨0, 0⟩⟩).WF ∧
    decodePacket (Packet.connectedProduction ⟨List.replicate 255 ⟨0, 0⟩⟩).kind
        (encodePacket (.connectedProduction ⟨List.replicate 255 ⟨0, 0⟩⟩)) =
      .ok (.connectedProduction ⟨List.replicate 255 ⟨0, 0⟩⟩) := by
  have h1 : (Packet.powerData ⟨2147483647, 0⟩).WF :=
    ⟨⟨by decide, by decide⟩, by decide, by decide⟩
  have h2 : (Packet.connectedProduction ⟨[]⟩).WF := ⟨by decide, by simp⟩
  have h3 : (Packet.connectedProduction ⟨List.replicate 255 ⟨0, 0⟩⟩).WF := by
    refine ⟨by rw [List.length_replicate], ?_⟩
    intro e he
    rw [List.eq_of_mem_replicate he]
    exact ⟨by decide, by decide, by decide⟩
  exact ⟨h1, c5_packet_round_trip _ h1, h2, c5_packet_round_trip _ h2,
    h3, c5_packet_round_trip _ h3⟩

/-- C6: decoding rejects with `ProtocolError` every packet whose byte length
does not match its type's fixed size (PowerData) or whose declared count
does not match the remaining bytes (RegistrationResponse,
ConnectedProduction, ConnectedConsumption); a successful PollResponse decode
pins the byte length to its declared counts, so any mismatch fails.  The
decoders are pure functions, so a rejection causes no state change. -/
theorem c6_length_mismatch_protocol_error :
    (∀ bs : List Nat, bs.length ≠ 8 →
      decodePowerData bs = .error .protocolError) ∧
    (∀ (success msg_len : Nat) (rest : List Nat), rest.length ≠ msg_len →
      decodeRegistrationResponse (success :: msg_len :: rest) =
        .error .protocolError) ∧
    (∀ (count : Nat) (rest : List Nat), rest.length ≠ 8 * count →
      decodeConnectedProduction (count :: rest) = .error .protocolError) ∧
    (∀ (count : Nat) (rest : List Nat), rest.length ≠ 4 * count →
      decodeConnectedConsumption (count :: rest) = .error .protocolError) ∧
    (∀ (bs : List Nat) (p : PollResponse), decodePollResponse bs = .ok p →
      bs.length = 2 + 5 * p.production_coeffs.length +
        5 * p.consumption_coeffs.length) := by
  refine ⟨?_, ?_, ?_, ?_, ?_⟩
  · intro bs h
    rcases bs with _ | ⟨a0, _ | ⟨a1, _ | ⟨a2, _ | ⟨a3, _ | ⟨a4, _ | ⟨a5,
      _ | ⟨a6, _ | ⟨a7, _ | ⟨a8, rest⟩⟩⟩⟩⟩⟩⟩⟩⟩ <;> first | rfl | simp_all
  · intro success msg_len rest h
    simp [decodeRegistrationResponse, h]
  · intro count rest h
    cases hp : parseProdEntries count rest with
    | none => simp [decodeConnectedProduction, hp]
    | some l => exact absurd (parseProdEntries_some_length hp) h
  · intro count rest h
    cases hp : parseConsumerIds count rest with
    | none => simp [decodeConnectedConsumption, hp]
    | some l => exact absurd (parseConsumerIds_some_length hp) h
  · intro bs p h
    rcases bs with _ | ⟨pc, rest⟩
    · simp [decodePollResponse] at h
    · simp only [decodePollResponse] at h
      cases hp : parseCoeffEntries pc rest with
      | none => rw [hp] at h; simp at h
      | some pr =>
        rw [hp] at h
        obtain ⟨prods, rem⟩ := pr
        rcases rem with _ | ⟨cc, rest2⟩
        · simp at h
        · cases hq : parseCoeffEntries cc rest2 with
          | none => simp [hq] at h
          | some qr =>
            obtain ⟨cons, rem2⟩ := qr
            rcases rem2 with _ | ⟨x, xs⟩
            · simp only [hq, Except.ok.injEq] at h
              obtain ⟨hlp, hbl⟩ := parseCoeffEntries_some_length hp
              obtain ⟨hlc, hbl2⟩ := parseCoeffEntries_some_length hq
              subst h
              simp_all
              omega
            · simp [hq] at h

/-- C6 witness: a ConnectedProduction packet declaring count 3 but carrying
only 16 payload bytes (24 expected) decodes to `ProtocolError`. -/
theorem c6_length_mismatch_protocol_error_witness :
    (List.replicate 16 (0 : Nat)).length ≠ 8 * 3 ∧
    decodeConnectedProduction (3 :: List.replicate 16 0) =
      .error .protocolError := by
  have h : (List.replicate 16 (0 : Nat)).length ≠ 8 * 3 := by decide
  exact ⟨h, c6_length_mismatch_protocol_error.2.2.1 3 (List.replicate 16 0) h⟩

end WebControl
